import Mathlib

/-!
Verification of the validation and routing engine of the PeeringDB MCP server.

The development shallowly embeds the pure logic of the engine:
* the object-type registry (`PEERINGDB_OBJECTS` and its lookup helpers),
* the field-schema synthesizer (`createFieldSchema`),
* the object-schema builder and validation entry point
  (`createObjectSchemaFields`, `parseObject`, `validateObjectData`),
* the query-parameter validator (`validateQueryParams`) and the resource
  parameter parser (`parseResourceParams`),
* the resource-identifier parser (`validateResourceUri`) together with a small
  model of the WHATWG URL parser fragment it relies on,
* the write-tool handlers and the bulk batch processor.

Modelling conventions: JavaScript runtime values are `JValue` with numbers as
integers (every input considered here is integral); a JS object is an
association list with unique keys, where `undefined`-valued entries count as
absent exactly as the zod validator treats them; the zod `z.object(...).parse`
semantics modelled by `parseObject` is the library default "strip" mode:
unknown keys are dropped, missing required keys and invalid values produce
issues, and parsing fails exactly when at least one issue exists.  The precise
zod `email()`/`url()` format checks are library internals abstracted to simple
decidable approximations; no theorem below depends on them.
-/

namespace PeeringDBMCP

/-- JavaScript-like runtime values.  Numbers are modelled as integers and the
only arrays that arise (comma-split `__in` query values) are string lists. -/
inductive JValue where
  | str (s : String)
  | num (n : Int)
  | bool (b : Bool)
  | undefined
  | arr (elems : List String)
deriving DecidableEq

/-- Character-list substring test used to model JavaScript `String.includes`. -/
def charsHave (pat : List Char) : List Char → Bool
  | [] => pat.isEmpty
  | l@(_ :: rest) => pat.isPrefixOf l || charsHave pat rest

/-- Model of JavaScript `s.includes(pat)`. -/
def strIncludes (s pat : String) : Bool := charsHave pat.toList s.toList

/-- Model of JavaScript `s.startsWith(pat)`. -/
def strStarts (s pat : String) : Bool := pat.toList.isPrefixOf s.toList

/-- Model of JavaScript `s.endsWith(pat)`. -/
def strEnds (s pat : String) : Bool :=
  pat.toList.reverse.isPrefixOf s.toList.reverse

/-- Character-list splitter on a nonempty separator, with structural fuel
(the input length suffices, as each step consumes at least one character). -/
def splitCharsAux (sep : List Char) : Nat → List Char → List (List Char)
  | _, [] => [[]]
  | 0, l => [l]
  | fuel + 1, l@(c :: rest) =>
    if sep ≠ [] ∧ sep.isPrefixOf l then
      [] :: splitCharsAux sep fuel (l.drop sep.length)
    else
      match splitCharsAux sep fuel rest with
      | [] => [[c]]
      | seg :: segs => (c :: seg) :: segs

/-- Model of JavaScript `s.split(sep)` for a nonempty separator (also the
behavior of the splitting the source performs on `://`, `/`, `&` and `,`). -/
def jsSplit (s sep : String) : List String :=
  (splitCharsAux sep.toList s.toList.length s.toList).map (fun cs => ⟨cs⟩)

/-- Model of JavaScript `s.toLowerCase()` for the ASCII names used here. -/
def jsToLower (s : String) : String := ⟨s.toList.map Char.toLower⟩

/-- One object-type descriptor, mirroring `PeeringDBObjectConfig` in
`config/peeringdb-objects.ts`.  Write operations are the literal HTTP verb
strings used by the source. -/
structure ObjectConfig where
  endpoint : String
  name : String
  description : String
  requiredFields : List String
  optionalFields : List String
  relationships : List String
  writeOperations : List String
deriving DecidableEq

/-- Registry entry for `org` (transcribed from `PEERINGDB_OBJECTS.org`). -/
def orgConfig : ObjectConfig where
  endpoint := "org"
  name := "Organization"
  description := "Organizations in PeeringDB"
  requiredFields := ["name"]
  optionalFields := ["website", "notes", "address1", "address2", "city",
    "state", "zipcode", "country", "latitude", "longitude", "phone", "email"]
  relationships := ["net_set", "fac_set", "ix_set"]
  writeOperations := ["POST", "PUT", "PATCH", "DELETE"]

/-- Registry entry for `fac`. -/
def facConfig : ObjectConfig where
  endpoint := "fac"
  name := "Facility"
  description := "Colocation facilities and data centers"
  requiredFields := ["name", "org_id"]
  optionalFields := ["website", "clli", "rencode", "npanxx", "notes",
    "address1", "address2", "city", "state", "zipcode", "country", "latitude",
    "longitude", "region_continent", "tech_email", "tech_phone", "sales_email",
    "sales_phone"]
  relationships := ["netfac_set", "ixfac_set"]
  writeOperations := ["POST", "PUT", "PATCH", "DELETE"]

/-- Registry entry for `ix`. -/
def ixConfig : ObjectConfig where
  endpoint := "ix"
  name := "Internet Exchange"
  description := "Internet Exchange Points"
  requiredFields := ["name", "org_id"]
  optionalFields := ["name_long", "city", "country", "region_continent",
    "media", "notes", "proto_unicast", "proto_multicast", "proto_ipv6",
    "website", "url_stats", "tech_email", "tech_phone", "policy_email",
    "policy_phone", "sales_email", "sales_phone"]
  relationships := ["ixlan_set", "ixfac_set", "netixlan_set"]
  writeOperations := ["POST", "PUT", "PATCH", "DELETE"]

/-- Registry entry for `net`. -/
def netConfig : ObjectConfig where
  endpoint := "net"
  name := "Network"
  description := "Autonomous Systems and Networks"
  requiredFields := ["name", "org_id", "asn"]
  optionalFields := ["aka", "name_long", "website", "irr_as_set",
    "looking_glass", "route_server", "notes", "notes_private", "info_type",
    "info_prefixes4", "info_prefixes6", "info_traffic", "info_ratio",
    "info_scope", "info_unicast", "info_multicast", "info_ipv6", "policy_url",
    "policy_general", "policy_locations", "policy_ratio", "policy_contracts"]
  relationships := ["netfac_set", "netixlan_set", "poc_set"]
  writeOperations := ["POST", "PUT", "PATCH", "DELETE"]

/-- Registry entry for `poc`. -/
def pocConfig : ObjectConfig where
  endpoint := "poc"
  name := "Point of Contact"
  description := "Contact information for networks"
  requiredFields := ["net_id", "role", "name", "email"]
  optionalFields := ["phone", "url", "visible"]
  relationships := []
  writeOperations := ["POST", "PUT", "PATCH", "DELETE"]

/-- Registry entry for `ixlan`. -/
def ixlanConfig : ObjectConfig where
  endpoint := "ixlan"
  name := "IX LAN"
  description := "Internet Exchange LAN details"
  requiredFields := ["ix_id", "name"]
  optionalFields := ["descr", "mtu", "vlan", "dot1q_support", "rs_asn"]
  relationships := ["ixpfx_set", "netixlan_set"]
  writeOperations := ["POST", "PUT", "PATCH", "DELETE"]

/-- Registry entry for `ixpfx`. -/
def ixpfxConfig : ObjectConfig where
  endpoint := "ixpfx"
  name := "IX Prefix"
  description := "IP prefixes announced at Internet Exchanges"
  requiredFields := ["ixlan_id", "prefix"]
  optionalFields := ["protocol"]
  relationships := []
  writeOperations := ["POST", "PUT", "PATCH", "DELETE"]

/-- Registry entry for `netixlan`. -/
def netixlanConfig : ObjectConfig where
  endpoint := "netixlan"
  name := "Network IX LAN"
  description := "Network connections to Internet Exchange LANs"
  requiredFields := ["net_id", "ixlan_id"]
  optionalFields := ["ipaddr4", "ipaddr6", "is_rs_peer", "speed", "asn",
    "operational"]
  relationships := []
  writeOperations := ["POST", "PUT", "PATCH", "DELETE"]

/-- Registry entry for `netfac`. -/
def netfacConfig : ObjectConfig where
  endpoint := "netfac"
  name := "Network Facility"
  description := "Network presence at facilities"
  requiredFields := ["net_id", "fac_id"]
  optionalFields := ["local_asn", "avail_sonet", "avail_ethernet", "avail_atm"]
  relationships := []
  writeOperations := ["POST", "PUT", "PATCH", "DELETE"]

/-- Static registry `PEERINGDB_OBJECTS`, as an ordered association list (a JS
record literal with unique keys in insertion order). -/
def PEERINGDB_OBJECTS : List (String × ObjectConfig) :=
  [("org", orgConfig), ("fac", facConfig), ("ix", ixConfig),
   ("net", netConfig), ("poc", pocConfig), ("ixlan", ixlanConfig),
   ("ixpfx", ixpfxConfig), ("netixlan", netixlanConfig),
   ("netfac", netfacConfig)]

/-- Exact-key record access `registry[t]` on a JS record. -/
def lookupCfg (registry : List (String × ObjectConfig)) (t : String) :
    Option ObjectConfig :=
  (registry.find? (fun p => p.1 == t)).map Prod.snd

/-- Model of `getObjectTypes()` (the record keys in insertion order). -/
def getObjectTypes : List String := PEERINGDB_OBJECTS.map Prod.fst

/-- Model of `getObjectConfig(objectType)` (case-insensitive lookup). -/
def getObjectConfig (t : String) : Option ObjectConfig :=
  lookupCfg PEERINGDB_OBJECTS (jsToLower t)

/-- Model of `supportsOperation` generalized over the registry value it
closes over; `supportsOperation` itself instantiates the global registry. -/
def supportsOperationIn (registry : List (String × ObjectConfig))
    (t op : String) : Bool :=
  match lookupCfg registry (jsToLower t) with
  | some cfg => cfg.writeOperations.contains op
  | none => false

/-- Model of `supportsOperation(objectType, operation)`. -/
def supportsOperation (t op : String) : Bool :=
  supportsOperationIn PEERINGDB_OBJECTS t op

/-- Fixed query modifier list `VALID_QUERY_MODIFIERS`. -/
def VALID_QUERY_MODIFIERS : List String :=
  ["contains", "startswith", "lt", "lte", "gt", "gte", "in"]

/-- Fixed standard parameter list `VALID_QUERY_PARAMS`. -/
def VALID_QUERY_PARAMS : List String :=
  ["limit", "skip", "depth", "fields", "since"]

/-- Validation rule synthesized for a single field, mirroring the zod schema
returned by `createFieldSchema`.  Email/URL format checks are abstracted (see
`checkField`). -/
inductive FieldSchema where
  | idUnion
  | positiveInt
  | emailStr
  | phoneStr
  | urlStr
  | latitudeNum
  | longitudeNum
  | booleanFlag
  | nonnegInt
  | ipStr
  | enumOf (values : List String)
  | plainStr
deriving DecidableEq

/-- Model of `createFieldSchema(fieldName, isRequired)` from
`utils/validation.ts`.  The source `isRequired` parameter is accepted there
but never read, so it is omitted here.  The if-chain order is exactly the
source order. -/
def createFieldSchema (fieldName : String) : FieldSchema :=
  if strEnds fieldName ("_id") || fieldName == "id" then .idUnion
  else if fieldName == "asn" then .positiveInt
  else if strIncludes fieldName ("email") then .emailStr
  else if strIncludes fieldName ("phone") then .phoneStr
  else if strIncludes fieldName ("url") || fieldName == "website" ||
      fieldName == "looking_glass" then .urlStr
  else if fieldName == "latitude" then .latitudeNum
  else if fieldName == "longitude" then .longitudeNum
  else if strStarts fieldName ("proto_") || strStarts fieldName ("info_") ||
      strStarts fieldName ("avail_") || fieldName == "is_rs_peer" ||
      fieldName == "dot1q_support" || fieldName == "operational" then
    .booleanFlag
  else if fieldName == "speed" || fieldName == "mtu" || fieldName == "vlan" ||
      fieldName == "rs_asn" || fieldName == "local_asn" ||
      strStarts fieldName ("info_prefixes") then .nonnegInt
  else if strIncludes fieldName ("ipaddr") || fieldName == "prefix" then .ipStr
  else if fieldName == "role" then
    .enumOf ["Abuse", "Administrative", "Maintenance", "NOC", "Policy",
      "Public Relations", "Sales", "Technical"]
  else if fieldName == "visible" then .enumOf ["Users", "Public", "Private"]
  else if fieldName == "status" then .enumOf ["ok", "pending", "deleted"]
  else if fieldName == "info_type" then
    .enumOf ["Content", "Cable/DSL/ISP", "Enterprise", "Educational/Research",
      "Government", "Non-Profit", "Route Server", "Network Services",
      "Online Gaming"]
  else if fieldName == "info_scope" then
    .enumOf ["Global", "Regional", "National", "Local"]
  else if fieldName == "policy_general" then
    .enumOf ["Open", "Selective", "Restrictive", "No"]
  else .plainStr

/-- Value-level acceptance of one field rule, mirroring the zod parse of the
corresponding schema.  Numbers are integers, so the `.int()` refinements hold
automatically; the email and URL format regexes are library internals
approximated by simple substring checks — no claim below depends on them. -/
def checkField : FieldSchema → JValue → Bool
  | .idUnion, v => (match v with | .str _ => true | .num _ => true | _ => false)
  | .positiveInt, v => (match v with | .num n => decide (0 < n) | _ => false)
  | .emailStr, v => (match v with | .str s => strIncludes s ("@") | _ => false)
  | .phoneStr, v => (match v with | .str _ => true | _ => false)
  | .urlStr, v => (match v with | .str s => strIncludes s ("://") | _ => false)
  | .latitudeNum, v =>
      (match v with | .num n => decide (-90 ≤ n ∧ n ≤ 90) | _ => false)
  | .longitudeNum, v =>
      (match v with | .num n => decide (-180 ≤ n ∧ n ≤ 180) | _ => false)
  | .booleanFlag, v => (match v with | .bool _ => true | _ => false)
  | .nonnegInt, v => (match v with | .num n => decide (0 ≤ n) | _ => false)
  | .ipStr, v => (match v with | .str _ => true | _ => false)
  | .enumOf values, v =>
      (match v with | .str s => values.contains s | _ => false)
  | .plainStr, v => (match v with | .str _ => true | _ => false)

/-- One entry of a built object schema: field name, its rule, and whether the
zod schema marks the field `.optional()`. -/
structure SchemaField where
  name : String
  schema : FieldSchema
  optional : Bool
deriving DecidableEq

/-- Assignment `schemaFields[f] = rule` on a JS record: replaces an existing
key in place, otherwise appends. -/
def upsertField (fs : List SchemaField) (f : SchemaField) : List SchemaField :=
  if fs.any (fun g => g.name == f.name) then
    fs.map (fun g => if g.name == f.name then f else g)
  else fs ++ [f]

/-- Operation tag union used by `createObjectSchema` and `validateObjectData`
(the TS literal union `create | update | patch`). -/
inductive WriteOp where
  | create
  | update
  | patch
deriving DecidableEq

/-- First build step of `createObjectSchema`: for update and patch, assign
the required `id` field (a string-or-number union). -/
def idPass (op : WriteOp) (fs : List SchemaField) : List SchemaField :=
  if op = .update ∨ op = .patch then upsertField fs ⟨"id", .idUnion, false⟩
  else fs

/-- Second build step: for create and update, assign every descriptor
required field as required. -/
def requiredPass (cfg : ObjectConfig) (op : WriteOp)
    (fs : List SchemaField) : List SchemaField :=
  if op = .create ∨ op = .update then
    cfg.requiredFields.foldl
      (fun a f => upsertField a ⟨f, createFieldSchema f, false⟩) fs
  else fs

/-- Third build step: assign every descriptor optional field with a trailing
`.optional()`.  The source computes an `isRequired` flag here and passes it to
`createFieldSchema`, which ignores it, so the trailing `.optional()` always
wins. -/
def optionalPass (cfg : ObjectConfig) (fs : List SchemaField) :
    List SchemaField :=
  cfg.optionalFields.foldl
    (fun a f => upsertField a ⟨f, createFieldSchema f, true⟩) fs

/-- Final build step: for patch, make every field except `id` optional. -/
def patchFinal (op : WriteOp) (fs : List SchemaField) : List SchemaField :=
  if op = .patch then
    fs.map (fun g => if g.name == "id" then g else { g with optional := true })
  else fs

/-- Body of `createObjectSchema` after the registry lookup: builds the schema
field record for a descriptor and operation by the four sequential source
steps applied to an initially empty record. -/
def createObjectSchemaFields (cfg : ObjectConfig) (op : WriteOp) :
    List SchemaField :=
  patchFinal op (optionalPass cfg (requiredPass cfg op (idPass op [])))

/-- Model of `createObjectSchema(objectType, operation)` including its
unknown-type failure path. -/
def createObjectSchema (t : String) (op : WriteOp) :
    Except String (List SchemaField) :=
  match lookupCfg PEERINGDB_OBJECTS t with
  | none => .error ("Unknown object type: " ++ t)
  | some cfg => .ok (createObjectSchemaFields cfg op)

/-- Presence lookup used by the zod object parser: an entry whose value is
`undefined` counts as absent, as does a missing key.  A JS object has unique
keys, so the first match is the only one. -/
def lookupDefined (data : List (String × JValue)) (k : String) :
    Option JValue :=
  match data.find? (fun p => p.1 == k) with
  | some p => (match p.2 with | .undefined => none | v => some v)
  | none => none

/-- Issues produced by zod when parsing `data` against a shape: one issue per
missing required field or per present-but-invalid field, in shape order.
Unknown keys of `data` produce no issue (default strip mode). -/
def fieldIssues (shape : List SchemaField) (data : List (String × JValue)) :
    List String :=
  shape.foldr
    (fun f acc =>
      (match lookupDefined data f.name with
       | none => if f.optional then [] else [f.name ++ ": Required"]
       | some v =>
         if checkField f.schema v then [] else [f.name ++ ": Invalid input"])
        ++ acc)
    []

/-- Output object of a successful zod parse: the shape fields that are
present in the data, in shape order; unknown keys are stripped. -/
def fieldOutput (shape : List SchemaField) (data : List (String × JValue)) :
    List (String × JValue) :=
  shape.foldr
    (fun f acc =>
      match lookupDefined data f.name with
      | none => acc
      | some v => (f.name, v) :: acc)
    []

/-- Model of `schema.parse(data)` for the built object schema: fails exactly
when at least one issue exists, otherwise returns the stripped output. -/
def parseObject (shape : List SchemaField) (data : List (String × JValue)) :
    Except (List String) (List (String × JValue)) :=
  match fieldIssues shape data with
  | [] => .ok (fieldOutput shape data)
  | issues => .error issues

/-- Model of `validateObjectData(objectType, data, operation)`: builds the
schema (propagating the unknown-type error) and parses, turning zod issues
into the joined error message thrown by the source. -/
def validateObjectData (t : String) (data : List (String × JValue))
    (op : WriteOp) : Except String (List (String × JValue)) :=
  match createObjectSchema t op with
  | .error e => .error e
  | .ok shape =>
    match parseObject shape data with
    | .ok out => .ok out
    | .error issues =>
      .error ("Validation failed for " ++ t ++ (": ") ++
        String.intercalate (", ") issues)

/-- Assignment `validated[key] = value` on a JS record under construction:
replaces an existing key in place, otherwise appends. -/
def upsert (l : List (String × JValue)) (k : String) (v : JValue) :
    List (String × JValue) :=
  if l.any (fun p => p.1 == k) then
    l.map (fun p => if p.1 == k then (k, v) else p)
  else l ++ [(k, v)]

/-- Match of the greedy regex `^(.+)__(.+)$`: splits at the last position `i`
where `__` occurs with a nonempty part on each side, yielding the field name
and the modifier. -/
def dunderSplitLast (s : String) : Option (String × String) :=
  let cs := s.toList
  let idxs := (List.range cs.length).filter
    (fun i => 0 < i && i + 2 < cs.length && ['_', '_'].isPrefixOf (cs.drop i))
  match idxs.getLast? with
  | some i => some (⟨cs.take i⟩, ⟨cs.drop (i + 2)⟩)
  | none => none

/-- Loop body of `validateQueryParams` for one `[key, value]` entry.  Every
branch assigns `validated[key] = value`; the branching only classifies the
key (standard parameter, recognized `field__modifier` compound, or bare
field filter) and rejects nothing. -/
def validateQueryParamsStep (acc : List (String × JValue))
    (kv : String × JValue) : List (String × JValue) :=
  if VALID_QUERY_PARAMS.contains kv.1 then upsert acc kv.1 kv.2
  else
    match dunderSplitLast kv.1 with
    | some fm =>
      if VALID_QUERY_MODIFIERS.contains fm.2 then upsert acc kv.1 kv.2
      else upsert acc kv.1 kv.2
    | none => upsert acc kv.1 kv.2

/-- Model of `validateQueryParams(params)` from `utils/validation.ts`. -/
def validateQueryParams (params : List (String × JValue)) :
    List (String × JValue) :=
  params.foldl validateQueryParamsStep []

/-- JavaScript whitespace test for the characters relevant here. -/
def isWs (c : Char) : Bool :=
  c == ' ' || c == '\t' || c == '\n' || c == '\r'

/-- Model of JavaScript `parseInt(s, 10)`: skip leading whitespace, consume an
optional sign and then a nonempty run of leading decimal digits; `none` models
`NaN`. -/
def jsParseInt (s : String) : Option Int :=
  let cs := s.toList.dropWhile isWs
  let signAndRest : Bool × List Char :=
    match cs with
    | '-' :: t => (true, t)
    | '+' :: t => (false, t)
    | t => (false, t)
  let digits := signAndRest.2.takeWhile (fun c => c.isDigit)
  if digits.isEmpty then none
  else
    let n : Nat := digits.foldl (fun a c => a * 10 + (c.toNat - 48)) 0
    some (if signAndRest.1 then -(n : Int) else (n : Int))

/-- Model of JavaScript `v.trim()` for the whitespace characters above. -/
def jsTrim (s : String) : String :=
  ⟨((s.toList.dropWhile isWs).reverse.dropWhile isWs).reverse⟩

/-- Model of `value.split(',').map(v => v.trim())`. -/
def splitCommaTrim (v : String) : List String :=
  (jsSplit v (",")).map jsTrim

/-- Loop body of `parseResourceParams` for one search parameter.  For the
numeric standard parameters a value that does not `parseInt` leaves `params`
untouched — the key is dropped. -/
def parseResourceParamsStep (params : List (String × JValue))
    (kv : String × String) : List (String × JValue) :=
  if (["limit", "skip", "depth", "since"] : List String).contains kv.1 then
    match jsParseInt kv.2 with
    | some n => upsert params kv.1 (.num n)
    | none => params
  else if strEnds kv.1 ("__in") then
    upsert params kv.1 (.arr (splitCommaTrim kv.2))
  else upsert params kv.1 (.str kv.2)

/-- Model of `PeeringDBResources.parseResourceParams(uri)` applied to the
URI search parameters (given as raw key/value string pairs, in order). -/
def parseResourceParams (searchParams : List (String × String)) :
    List (String × JValue) :=
  searchParams.foldl parseResourceParamsStep []

/-- Normalization pipeline of the resource handlers in
`resources/peeringdb-resources.ts`: `parseResourceParams` followed by
`validateQueryParams`. -/
def normalizeResourceParams (searchParams : List (String × String)) :
    List (String × JValue) :=
  validateQueryParams (parseResourceParams searchParams)

/-- Components of a parsed URL that `validateResourceUri` reads. -/
structure ParsedURL where
  scheme : String
  host : String
  pathname : String
  searchParams : List (String × String)
deriving DecidableEq

/-- Split an authority from the remainder: the authority runs up to the first
`/` or `?`. -/
def splitAuthority : List Char → List Char × List Char
  | [] => ([], [])
  | c :: rest =>
    if c = '/' ∨ c = '?' then ([], c :: rest)
    else
      let pr := splitAuthority rest
      (c :: pr.1, pr.2)

/-- Split a path-and-query remainder at the first `?`. -/
def splitQuery : List Char → List Char × List Char
  | [] => ([], [])
  | c :: rest =>
    if c = '?' then ([], rest)
    else
      let pr := splitQuery rest
      (c :: pr.1, pr.2)

/-- Split one `key=value` pair at the first `=`; a pair without `=` gets the
empty value. -/
def splitEq : List Char → List Char × List Char
  | [] => ([], [])
  | c :: rest =>
    if c = '=' then ([], rest)
    else
      let pr := splitEq rest
      (c :: pr.1, pr.2)

/-- Parse a query string into ordered key/value pairs (split on `&`, then at
the first `=`; empty pairs are skipped). -/
def parseQueryString (q : String) : List (String × String) :=
  (jsSplit q ("&")).filterMap
    (fun pair =>
      if pair.isEmpty then none
      else
        let pr := splitEq pair.toList
        some (⟨pr.1⟩, ⟨pr.2⟩))

/-- Model of the WHATWG `new URL(uri)` parser for the fragment the code
exercises: a non-special `scheme://host/path?query` identifier without
userinfo, port, fragment, or percent-encoding.  The scheme is the part before
the first `://`, the host runs to the first `/` or `?`, the pathname (with its
leading `/`) runs to the first `?`, and the query is split into ordered
key/value pairs.  An input without a `scheme://` prefix is outside the model
and yields `none` (the constructor throws). -/
def jsParseURL (uri : String) : Option ParsedURL :=
  match jsSplit uri ("://") with
  | sch :: rest₀ :: restMore =>
    if sch.isEmpty then none
    else
      let rest := String.intercalate ("://") (rest₀ :: restMore)
      let ar := splitAuthority rest.toList
      let pq := splitQuery ar.2
      some { scheme := sch, host := ⟨ar.1⟩, pathname := ⟨pq.1⟩,
             searchParams := parseQueryString ⟨pq.2⟩ }
  | _ => none

/-- Result shape of `validateResourceUri`: object type, the optional third
path segment as id, and the validated query parameters. -/
structure ResourceRef where
  objectType : String
  id : Option String
  params : List (String × JValue)
deriving DecidableEq

/-- Model of `validateObjectType(objectType)`. -/
def validateObjectType (t : String) : Bool :=
  (lookupCfg PEERINGDB_OBJECTS (jsToLower t)).isSome

/-- Model of `validateResourceUri(uri)` from `utils/validation.ts`: URL
construction, nonempty path segments, the literal `peeringdb:` first-segment
check, registry validation of the second segment, and pass-through of the
query parameters via `validateQueryParams` (each value a string). -/
def validateResourceUri (uri : String) : Except String ResourceRef :=
  match jsParseURL uri with
  | none => .error ("Invalid URL")
  | some url =>
    let pathParts := (jsSplit url.pathname ("/")).filter
      (fun part => 0 < part.length)
    if pathParts.length < 1 ∨ pathParts.get? 0 ≠ some "peeringdb:" then
      .error ("Invalid PeeringDB resource URI format")
    else
      match pathParts.get? 1 with
      | none => .error ("Missing object type in URI")
      | some objectType =>
        if ¬ validateObjectType objectType then
          .error ("Invalid object type: " ++ objectType)
        else
          .ok { objectType := objectType
                id := pathParts.get? 2
                params := validateQueryParams
                  (url.searchParams.map (fun kv => (kv.1, JValue.str kv.2))) }

/-- Backend calls issued through `PeeringDBClient`, recorded at the client
method boundary (`post`/`put`/`patch`/`delete`).  For the id-taking verbs the
raw JS value passed as `id` is recorded (`undefined` when the map had no
such key). -/
inductive BackendCall where
  | post (endpoint : String) (data : List (String × JValue))
  | put (endpoint : String) (id : JValue) (data : List (String × JValue))
  | patch (endpoint : String) (id : JValue) (data : List (String × JValue))
  | delete (endpoint : String) (id : JValue)
deriving DecidableEq

/-- Outcome of one tool-handler invocation: the surfaced result (errors are
the caught messages rendered into the `isError` reply) and the list of
backend calls issued, in order. -/
structure HandlerOut where
  result : Except String JValue
  calls : List BackendCall

/-- Raw JS property access `args.id` style: the stored value, or `undefined`
when the key is absent. -/
def rawGet (args : List (String × JValue)) (k : String) : JValue :=
  match args.find? (fun p => p.1 == k) with
  | some p => p.2
  | none => .undefined

/-- Rest-destructuring `const { id, ...data } = args`: every entry except the
named key. -/
def removeKey (args : List (String × JValue)) (k : String) :
    List (String × JValue) :=
  args.filter (fun p => !(p.1 == k))

/-- Error thrown by `PeeringDBClient.validateApiKey` when no API key is
configured. -/
def missingKeyMsg : String :=
  "API key is required for write operations. Please set PEERINGDB_API_KEY environment variable."

/-- Model of the `peeringdb_create_*` tool handler body: validate the raw
arguments for `create`, then `client.post` (which first checks the API key);
any thrown error is caught into an error result with no further call. -/
def createToolHandler (t : String) (cfg : ObjectConfig) (hasKey : Bool)
    (backend : BackendCall → Except String JValue)
    (args : List (String × JValue)) : HandlerOut :=
  match validateObjectData t args .create with
  | .error e => ⟨.error ("Failed to create " ++ t ++ (": ") ++ e), []⟩
  | .ok validated =>
    if !hasKey then
      ⟨.error ("Failed to create " ++ t ++ (": ") ++ missingKeyMsg), []⟩
    else
      let c := BackendCall.post cfg.endpoint validated
      ⟨backend c, [c]⟩

/-- Model of the `peeringdb_update_*` tool handler body: destructure
`{ id, ...data }`, validate `data` for `update`, then `client.put` with the
raw id. -/
def updateToolHandler (t : String) (cfg : ObjectConfig) (hasKey : Bool)
    (backend : BackendCall → Except String JValue)
    (args : List (String × JValue)) : HandlerOut :=
  match validateObjectData t (removeKey args ("id")) .update with
  | .error e => ⟨.error ("Failed to update " ++ t ++ (": ") ++ e), []⟩
  | .ok validated =>
    if !hasKey then
      ⟨.error ("Failed to update " ++ t ++ (": ") ++ missingKeyMsg), []⟩
    else
      let c := BackendCall.put cfg.endpoint (rawGet args ("id")) validated
      ⟨backend c, [c]⟩

/-- Model of the `peeringdb_patch_*` tool handler body: destructure
`{ id, ...data }`, validate `data` for `patch`, then `client.patch` with the
raw id. -/
def patchToolHandler (t : String) (cfg : ObjectConfig) (hasKey : Bool)
    (backend : BackendCall → Except String JValue)
    (args : List (String × JValue)) : HandlerOut :=
  match validateObjectData t (removeKey args ("id")) .patch with
  | .error e => ⟨.error ("Failed to patch " ++ t ++ (": ") ++ e), []⟩
  | .ok validated =>
    if !hasKey then
      ⟨.error ("Failed to patch " ++ t ++ (": ") ++ missingKeyMsg), []⟩
    else
      let c := BackendCall.patch cfg.endpoint (rawGet args ("id")) validated
      ⟨backend c, [c]⟩

/-- Model of the `peeringdb_delete_*` tool handler body: no validation of any
kind; `client.delete` checks the API key and then issues exactly one delete
call with the raw `args.id` value. -/
def deleteToolHandler (t : String) (cfg : ObjectConfig) (hasKey : Bool)
    (backend : BackendCall → Except String JValue)
    (args : List (String × JValue)) : HandlerOut :=
  if !hasKey then
    ⟨.error ("Failed to delete " ++ t ++ (": ") ++ missingKeyMsg), []⟩
  else
    let c := BackendCall.delete cfg.endpoint (rawGet args ("id"))
    ⟨backend c, [c]⟩

/-- Bulk sub-operation union (`create | update | delete`). -/
inductive BulkOp where
  | create
  | update
  | delete
deriving DecidableEq

/-- Per-item body of the bulk handler switch: the same validate-then-call
sequence as the corresponding single tool (update destructures the id out
before validating; delete calls straight through with `item.id`). -/
def bulkItemStep (t : String) (cfg : ObjectConfig) (hasKey : Bool)
    (backend : BackendCall → Except String JValue) (op : BulkOp)
    (item : List (String × JValue)) : HandlerOut :=
  match op with
  | .create =>
    match validateObjectData t item .create with
    | .error e => ⟨.error e, []⟩
    | .ok validated =>
      if !hasKey then ⟨.error missingKeyMsg, []⟩
      else
        let c := BackendCall.post cfg.endpoint validated
        ⟨backend c, [c]⟩
  | .update =>
    match validateObjectData t (removeKey item ("id")) .update with
    | .error e => ⟨.error e, []⟩
    | .ok validated =>
      if !hasKey then ⟨.error missingKeyMsg, []⟩
      else
        let c := BackendCall.put cfg.endpoint (rawGet item ("id")) validated
        ⟨backend c, [c]⟩
  | .delete =>
    if !hasKey then ⟨.error missingKeyMsg, []⟩
    else
      let c := BackendCall.delete cfg.endpoint (rawGet item ("id"))
      ⟨backend c, [c]⟩

/-- One recorded `BulkItemResult`: success flag, the original item, and the
response or error message. -/
structure BulkItemResult where
  success : Bool
  item : List (String × JValue)
  response : Option JValue
  error : Option String
deriving DecidableEq

/-- Record the outcome of one item and its issued calls (the try/catch around each
item of a batch). -/
def processBulkItem (step : List (String × JValue) → HandlerOut)
    (item : List (String × JValue)) : BulkItemResult × List BackendCall :=
  match step item with
  | ⟨.ok r, cs⟩ => (⟨true, item, some r, none⟩, cs)
  | ⟨.error e, cs⟩ => (⟨false, item, none, some e⟩, cs)

/-- Batch loop of the bulk handler, written with structural fuel so that it
computes by reduction.  Each pass takes one batch of `bs` items, records every
item result in order, and counts one inter-batch delay exactly when items
remain (the source condition `i + batch_size < items.length`).  With
`bs = 0` the source loop never terminates; that case is outside the modelled
domain and returns the empty outcome.  `bulkRun` supplies fuel
`items.length`, which suffices since every pass with `bs ≥ 1` consumes at
least one item. -/
def bulkLoop (step : List (String × JValue) → HandlerOut) (bs : Nat) :
    Nat → List (List (String × JValue)) →
      List BulkItemResult × List BackendCall × Nat
  | _, [] => ([], [], 0)
  | 0, _ :: _ => ([], [], 0)
  | fuel + 1, items@(_ :: _) =>
    if bs = 0 then ([], [], 0)
    else
      let batch := items.take bs
      let rest := items.drop bs
      let pr := batch.map (processBulkItem step)
      let tail := bulkLoop step bs fuel rest
      (pr.map Prod.fst ++ tail.1,
       (pr.map Prod.snd).flatten ++ tail.2.1,
       (if rest.isEmpty then 0 else 1) + tail.2.2)

/-- Model of the `peeringdb_bulk_*` handler loop: results in input order, the
backend calls issued, and the number of inter-batch delays taken. -/
def bulkRun (step : List (String × JValue) → HandlerOut) (bs : Nat)
    (items : List (List (String × JValue))) :
    List BulkItemResult × List BackendCall × Nat :=
  bulkLoop step bs items.length items

/-- Successful count reported by the bulk handler
(`results.filter(r => r.success).length`). -/
def bulkSuccessCount (rs : List BulkItemResult) : Nat :=
  (rs.filter (fun r => r.success)).length

/-- Failed count reported by the bulk handler
(`results.filter(r => !r.success).length`). -/
def bulkFailedCount (rs : List BulkItemResult) : Nat :=
  (rs.filter (fun r => !r.success)).length

/-- Kinds of tools `registerObjectTools` can register for one object type. -/
inductive ToolKind where
  | create
  | update
  | patch
  | delete
  | bulk
deriving DecidableEq

/-- Registered MCP tool name for a kind and object type
(`peeringdb_create_${objectType}` and so on). -/
def toolName : ToolKind → String → String
  | .create, t => "peeringdb_create_" ++ t
  | .update, t => "peeringdb_update_" ++ t
  | .patch, t => "peeringdb_patch_" ++ t
  | .delete, t => "peeringdb_delete_" ++ t
  | .bulk, t => "peeringdb_bulk_" ++ t

/-- Model of `registerObjectTools(server, objectType)` generalized over the
registry it closes over: the set of tools registered for one object type.
Create/update/patch/delete are guarded by `supportsOperation` with the
matching HTTP verb; the bulk tool is always registered; an unknown type
throws before registering anything. -/
def registeredTools (registry : List (String × ObjectConfig)) (t : String) :
    List ToolKind :=
  match lookupCfg registry t with
  | none => []
  | some _ =>
    (if supportsOperationIn registry t ("POST") then [ToolKind.create]
     else []) ++
    (if supportsOperationIn registry t ("PUT") then [ToolKind.update]
     else []) ++
    (if supportsOperationIn registry t ("PATCH") then [ToolKind.patch]
     else []) ++
    (if supportsOperationIn registry t ("DELETE") then [ToolKind.delete]
     else []) ++
    [ToolKind.bulk]

/-- Modelled from the spec: the protocol-layer tool lookup performed by the
MCP server collaborator (outside this repository) when a caller invokes a
delete tool.  A tool name that was never registered fails before any handler
runs, so no backend call can be issued; a registered delete tool runs the
handler defined above. -/
def dispatchDelete (registry : List (String × ObjectConfig)) (t : String)
    (cfg : ObjectConfig) (hasKey : Bool)
    (backend : BackendCall → Except String JValue)
    (args : List (String × JValue)) : HandlerOut :=
  if ToolKind.delete ∈ registeredTools registry t then
    deleteToolHandler t cfg hasKey backend args
  else ⟨.error ("UnsupportedOperation"), []⟩

/-- Boolean error test on a handler or validation result. -/
def isErr : Except String JValue → Bool
  | .error _ => true
  | .ok _ => false

/-- Registry lookup on a cons cell, as an if. -/
theorem find_cons_eq {α : Type} {p : α → Bool} {a : α} {l : List α} :
    List.find? p (a :: l) = if p a then some a else List.find? p l := by
  cases hpa : p a <;> simp [List.find?, hpa]

/-- Successful lookup in the static registry yields one of its nine concrete
type/descriptor entries. -/
theorem lookupCfg_mem_registry {t : String} {cfg : ObjectConfig}
    (h : lookupCfg PEERINGDB_OBJECTS t = some cfg) :
    (t, cfg) ∈ PEERINGDB_OBJECTS := by
  unfold lookupCfg at h
  cases hf : List.find? (fun p => p.1 == t) PEERINGDB_OBJECTS with
  | none => rw [hf] at h; simp at h
  | some q =>
    rw [hf] at h
    simp only [Option.map_some'] at h
    have hq := List.mem_of_find?_eq_some hf
    have hqb := List.find?_some hf
    have hqe : q = (t, cfg) := Prod.ext (eq_of_beq hqb) (by simpa using h)
    exact hqe ▸ hq

/-- Removing a key makes it absent for the zod presence lookup. -/
theorem lookupDefined_removeKey (data : List (String × JValue)) (k : String) :
    lookupDefined (removeKey data k) k = none := by
  induction data with
  | nil => rfl
  | cons p rest ih =>
    unfold removeKey at ih ⊢
    cases hpk : (p.1 == k) with
    | true => simpa [List.filter, hpk] using ih
    | false => simpa [lookupDefined, List.filter, find_cons_eq, hpk] using ih

/-- Parsing data that lacks `id` against a schema whose first field is a
required `id` always fails. -/
theorem validateObjectData_error_of_missing_id {t : String} {op : WriteOp}
    {sch : FieldSchema} {rest : List SchemaField}
    {data : List (String × JValue)}
    (hs : createObjectSchema t op = .ok (⟨"id", sch, false⟩ :: rest))
    (hd : lookupDefined data ("id") = none) :
    validateObjectData t data op =
      .error ("Validation failed for " ++ t ++ (": ") ++
        String.intercalate (", ")
          (("id" ++ (": Required")) :: fieldIssues rest data)) := by
  have hfi : fieldIssues (⟨"id", sch, false⟩ :: rest) data =
      ("id" ++ (": Required")) :: fieldIssues rest data := by
    simp [fieldIssues, hd]
  simp only [validateObjectData, hs, parseObject, hfi]

/-- Flatten of a list of empty lists is empty. -/
theorem flatten_nil_of_all_nil {α : Type} :
    ∀ L : List (List α), (∀ x ∈ L, x = []) → L.flatten = [] := by
  intro L
  induction L with
  | nil => intro _; rfl
  | cons x xs ih =>
    intro hall
    rw [List.flatten_cons, hall x (by simp), ih (fun y hy => hall y (by simp [hy]))]
    rfl

/-- The update and patch schemas of every registered type start with the
required `id` union field. -/
theorem schema_head_id (t : String) (cfg : ObjectConfig)
    (h : lookupCfg PEERINGDB_OBJECTS t = some cfg) :
    (∃ rest, createObjectSchema t .update =
      .ok (⟨"id", FieldSchema.idUnion, false⟩ :: rest)) ∧
    (∃ rest, createObjectSchema t .patch =
      .ok (⟨"id", FieldSchema.idUnion, false⟩ :: rest)) := by
  have hm := lookupCfg_mem_registry h
  fin_cases hm <;> exact ⟨⟨_, rfl⟩, ⟨_, rfl⟩⟩

/-- A step that always fails without calling the backend makes every bulk
pass record only failures and issue no backend call. -/
theorem bulkLoop_all_fail {step : List (String × JValue) → HandlerOut}
    {bs : Nat} (h : ∀ item, ∃ e, step item = ⟨Except.error e, []⟩) :
    ∀ (fuel : Nat) (items : List (List (String × JValue))),
      (bulkLoop step bs fuel items).2.1 = [] ∧
      ∀ r ∈ (bulkLoop step bs fuel items).1, r.success = false := by
  have hpr : ∀ item, (processBulkItem step item).1.success = false ∧
      (processBulkItem step item).2 = [] := by
    intro item
    obtain ⟨e, he⟩ := h item
    simp [processBulkItem, he]
  intro fuel
  induction fuel with
  | zero =>
    intro items
    cases items <;> simp [bulkLoop]
  | succ n ih =>
    intro items
    cases items with
    | nil => simp [bulkLoop]
    | cons a l =>
      by_cases hbs : bs = 0
      · simp [bulkLoop, hbs]
      · obtain ⟨ihc, ihr⟩ := ih ((a :: l).drop bs)
        constructor
        · simp only [bulkLoop, hbs, if_false]
          rw [List.map_map, ihc,
            flatten_nil_of_all_nil _ (by
              intro x hx
              obtain ⟨it, _, hxit⟩ := List.mem_map.mp hx
              rw [← hxit]
              exact (hpr it).2)]
          rfl
        · simp only [bulkLoop, hbs, if_false]
          intro r hr
          rcases List.mem_append.mp hr with hr1 | hr2
          · rw [List.map_map] at hr1
            obtain ⟨it, _, hrit⟩ := List.mem_map.mp hr1
            rw [← hrit]
            exact (hpr it).1
          · exact ihr r hr2

/-- C1: for every registered object type and every input argument map, the
update and patch tool handlers strip the `id` field from the arguments before
validation while the schema built for the update and patch operations
requires `id`; consequently every invocation of an update or patch tool
fails validation and issues no backend call, and every item of a bulk
`update` run is recorded as a failure with no backend call. -/
theorem claim1_update_patch_always_fail :
    ∀ (t : String) (cfg : ObjectConfig),
      lookupCfg PEERINGDB_OBJECTS t = some cfg →
      ∀ (hasKey : Bool) (backend : BackendCall → Except String JValue)
        (args : List (String × JValue)),
        ((updateToolHandler t cfg hasKey backend args).calls = [] ∧
          isErr (updateToolHandler t cfg hasKey backend args).result = true) ∧
        ((patchToolHandler t cfg hasKey backend args).calls = [] ∧
          isErr (patchToolHandler t cfg hasKey backend args).result = true) ∧
        ∀ (bs : Nat) (items : List (List (String × JValue))),
          (bulkRun (bulkItemStep t cfg hasKey backend .update) bs
              items).2.1 = [] ∧
          ∀ r ∈ (bulkRun (bulkItemStep t cfg hasKey backend .update) bs
              items).1, r.success = false := by
  intro t cfg h hasKey backend args
  obtain ⟨⟨restU, hU⟩, ⟨restP, hP⟩⟩ := schema_head_id t cfg h
  have hvU : ∀ d : List (String × JValue), ∃ e,
      validateObjectData t (removeKey d ("id")) .update = .error e :=
    fun d => ⟨_, validateObjectData_error_of_missing_id hU
      (lookupDefined_removeKey d ("id"))⟩
  have hvP : ∀ d : List (String × JValue), ∃ e,
      validateObjectData t (removeKey d ("id")) .patch = .error e :=
    fun d => ⟨_, validateObjectData_error_of_missing_id hP
      (lookupDefined_removeKey d ("id"))⟩
  refine ⟨?_, ?_, ?_⟩
  · obtain ⟨e, he⟩ := hvU args
    constructor <;> simp [updateToolHandler, he, isErr]
  · obtain ⟨e, he⟩ := hvP args
    constructor <;> simp [patchToolHandler, he, isErr]
  · intro bs items
    have hstep : ∀ item, ∃ e,
        bulkItemStep t cfg hasKey backend .update item =
          ⟨Except.error e, []⟩ := by
      intro item
      obtain ⟨e, he⟩ := hvU item
      exact ⟨e, by simp [bulkItemStep, he]⟩
    exact bulkLoop_all_fail hstep items.length items

/-- Witness for C1 at the `org` type and a well-formed argument map. -/
theorem claim1_witness :
    lookupCfg PEERINGDB_OBJECTS ("org") = some orgConfig ∧
    ((updateToolHandler ("org") orgConfig true
        (fun _ => Except.ok (JValue.str ("resp")))
        [(("id"), JValue.num 1), (("name"), JValue.str ("Acme"))]).calls =
        [] ∧
      isErr (updateToolHandler ("org") orgConfig true
        (fun _ => Except.ok (JValue.str ("resp")))
        [(("id"), JValue.num 1), (("name"), JValue.str ("Acme"))]).result =
        true) ∧
    ((patchToolHandler ("org") orgConfig true
        (fun _ => Except.ok (JValue.str ("resp")))
        [(("id"), JValue.num 1), (("name"), JValue.str ("Acme"))]).calls =
        [] ∧
      isErr (patchToolHandler ("org") orgConfig true
        (fun _ => Except.ok (JValue.str ("resp")))
        [(("id"), JValue.num 1), (("name"), JValue.str ("Acme"))]).result =
        true) ∧
    (bulkRun (bulkItemStep ("org") orgConfig true
        (fun _ => Except.ok (JValue.str ("resp"))) .update) 10
        [[(("id"), JValue.num 1), (("name"), JValue.str ("Acme"))]]).2.1 =
      [] := by
  have h := claim1_update_patch_always_fail ("org") orgConfig rfl true
    (fun _ => Except.ok (JValue.str ("resp")))
    [(("id"), JValue.num 1), (("name"), JValue.str ("Acme"))]
  exact ⟨rfl, h.1, h.2.1,
    (h.2.2 10 [[(("id"), JValue.num 1), (("name"), JValue.str ("Acme"))]]).1⟩

/-- A leading entry under a different key is invisible to the zod presence
lookup. -/
theorem lookupDefined_cons_ne {k f : String} {v : JValue}
    {data : List (String × JValue)} (hk : (k == f) = false) :
    lookupDefined ((k, v) :: data) f = lookupDefined data f := by
  simp [lookupDefined, find_cons_eq, hk]

/-- An extra entry whose key is outside the schema changes no issue. -/
theorem fieldIssues_cons_unknown {k : String} {v : JValue}
    (shape : List SchemaField) (data : List (String × JValue))
    (hk : ∀ f ∈ shape, (k == f.name) = false) :
    fieldIssues shape ((k, v) :: data) = fieldIssues shape data := by
  induction shape with
  | nil => rfl
  | cons f rest ih =>
    unfold fieldIssues at ih ⊢
    rw [List.foldr_cons, List.foldr_cons,
      lookupDefined_cons_ne (hk f (by simp)),
      ih (fun g hg => hk g (by simp [hg]))]

/-- An extra entry whose key is outside the schema changes no output. -/
theorem fieldOutput_cons_unknown {k : String} {v : JValue}
    (shape : List SchemaField) (data : List (String × JValue))
    (hk : ∀ f ∈ shape, (k == f.name) = false) :
    fieldOutput shape ((k, v) :: data) = fieldOutput shape data := by
  induction shape with
  | nil => rfl
  | cons f rest ih =>
    unfold fieldOutput at ih ⊢
    rw [List.foldr_cons, List.foldr_cons,
      lookupDefined_cons_ne (hk f (by simp)),
      ih (fun g hg => hk g (by simp [hg]))]

/-- Every key of a parse output is a schema field name. -/
theorem fieldOutput_keys_sub (shape : List SchemaField)
    (data : List (String × JValue)) :
    ∀ p ∈ fieldOutput shape data, p.1 ∈ shape.map SchemaField.name := by
  induction shape with
  | nil => intro p hp; cases hp
  | cons f rest ih =>
    intro p hp
    unfold fieldOutput at hp
    rw [List.foldr_cons] at hp
    revert hp
    cases hld : lookupDefined data f.name with
    | none =>
      intro hp
      exact List.mem_cons_of_mem _ (ih p hp)
    | some v =>
      intro hp
      rcases List.mem_cons.mp hp with h1 | h2
      · rw [h1]
        exact List.mem_cons_self _ _
      · exact List.mem_cons_of_mem _ (ih p h2)

/-- C2 counterexample: payload fields absent from the built schema are not
rejected; the parse succeeds and silently drops them (here `bogus` on an
`org` create). -/
theorem claim2_counterexample :
    validateObjectData ("org")
      [(("name"), JValue.str ("Acme")), (("bogus"), JValue.str ("1"))]
      .create =
    Except.ok [(("name"), JValue.str ("Acme"))] := by rfl

/-- C2 amended: validation never rejects a payload field absent from the
built schema; such a field is invisible to validation — removing it changes
nothing — and a successful parse output contains only schema field names. -/
theorem claim2_unknown_fields_silently_stripped :
    ∀ (t : String) (cfg : ObjectConfig) (op : WriteOp) (k : String)
      (v : JValue) (data : List (String × JValue)),
      lookupCfg PEERINGDB_OBJECTS t = some cfg →
      k ∉ (createObjectSchemaFields cfg op).map SchemaField.name →
      validateObjectData t ((k, v) :: data) op =
        validateObjectData t data op ∧
      ∀ out, validateObjectData t data op = Except.ok out →
        ∀ p ∈ out, p.1 ∈ (createObjectSchemaFields cfg op).map
          SchemaField.name := by
  intro t cfg op k v data h hk
  have hks : ∀ f ∈ createObjectSchemaFields cfg op, (k == f.name) = false := by
    intro f hf
    exact beq_eq_false_iff_ne.mpr
      (fun he => hk (he ▸ List.mem_map_of_mem SchemaField.name hf))
  have hsch : createObjectSchema t op = .ok (createObjectSchemaFields cfg op) := by
    unfold createObjectSchema
    rw [h]
  constructor
  · simp only [validateObjectData, hsch, parseObject,
      fieldIssues_cons_unknown _ _ hks, fieldOutput_cons_unknown _ _ hks]
  · intro out hout
    simp only [validateObjectData, hsch, parseObject] at hout
    revert hout
    cases hfi : fieldIssues (createObjectSchemaFields cfg op) data with
    | nil =>
      intro hout
      simp only [Except.ok.injEq] at hout
      rw [← hout]
      exact fieldOutput_keys_sub _ _
    | cons i is =>
      intro hout
      simp at hout

/-- Witness for C2 at the `org` create schema and the field `bogus`. -/
theorem claim2_witness :
    (("bogus" : String) ∉ (createObjectSchemaFields orgConfig
      .create).map SchemaField.name) ∧
    validateObjectData ("org")
      [(("bogus"), JValue.str ("1")), (("name"), JValue.str ("Acme"))]
      .create =
    validateObjectData ("org") [(("name"), JValue.str ("Acme"))] .create := by
  refine ⟨by decide, ?_⟩
  exact (claim2_unknown_fields_silently_stripped ("org") orgConfig .create
    ("bogus") (JValue.str ("1")) [(("name"), JValue.str ("Acme"))] rfl
    (by decide)).1

/-- C3 counterexample: the patch schema does not contain every field of the
required+optional union — for `org` the required field `name` is absent from
the patch schema entirely (required fields are only added for create and
update). -/
theorem claim3_counterexample :
    ("name" : String) ∈ orgConfig.requiredFields ∧
    ("name" : String) ∉
      (createObjectSchemaFields orgConfig .patch).map SchemaField.name := by
  decide

/-- C3 amended: for every registered type, the patch schema requires exactly
the `id` field; its remaining fields are exactly the optional fields of the
descriptor, all marked optional (descriptor required fields not listed among the
optional fields are absent); and validating `patch` on a payload holding only
a string or number `id` succeeds, returning just that `id`. -/
theorem claim3_patch_schema_amended :
    ∀ (t : String) (cfg : ObjectConfig),
      lookupCfg PEERINGDB_OBJECTS t = some cfg →
      ((createObjectSchemaFields cfg .patch).filter
        (fun f => !f.optional)).map SchemaField.name = ["id"] ∧
      (createObjectSchemaFields cfg .patch).map SchemaField.name =
        "id" :: cfg.optionalFields ∧
      (∀ s : String, validateObjectData t [(("id"), JValue.str s)] .patch =
        Except.ok [(("id"), JValue.str s)]) ∧
      (∀ n : Int, validateObjectData t [(("id"), JValue.num n)] .patch =
        Except.ok [(("id"), JValue.num n)]) := by
  intro t cfg h
  have hm := lookupCfg_mem_registry h
  fin_cases hm <;>
    exact ⟨by decide, by decide, fun s => rfl, fun n => rfl⟩

/-- Witness for C3 at the `net` type. -/
theorem claim3_witness :
    lookupCfg PEERINGDB_OBJECTS ("net") = some netConfig ∧
    validateObjectData ("net") [(("id"), JValue.str ("123"))] .patch =
      Except.ok [(("id"), JValue.str ("123"))] := by
  exact ⟨rfl,
    (claim3_patch_schema_amended ("net") netConfig rfl).2.2.1 ("123")⟩

/-- C4: a bulk run over `[A, B, C]` with batch size 2 in which dispatching A
and C succeeds and dispatching B fails yields three results in the original
input order with the failure of B isolated, counts 2 successful and 1 failed, and
takes exactly one inter-batch delay (between batch `[A, B]` and batch `[C]`,
none after the last batch). -/
theorem claim4_bulk_failure_isolation :
    ∀ (step : List (String × JValue) → HandlerOut)
      (A B C : List (String × JValue)) (rA rC : JValue) (e : String)
      (ca cb cc : List BackendCall),
      step A = ⟨Except.ok rA, ca⟩ →
      step B = ⟨Except.error e, cb⟩ →
      step C = ⟨Except.ok rC, cc⟩ →
      (bulkRun step 2 [A, B, C]).1 =
        [⟨true, A, some rA, none⟩, ⟨false, B, none, some e⟩,
          ⟨true, C, some rC, none⟩] ∧
      (bulkRun step 2 [A, B, C]).2.2 = 1 ∧
      bulkSuccessCount (bulkRun step 2 [A, B, C]).1 = 2 ∧
      bulkFailedCount (bulkRun step 2 [A, B, C]).1 = 1 := by
  intro step A B C rA rC e ca cb cc hA hB hC
  have hres : (bulkRun step 2 [A, B, C]).1 =
      [⟨true, A, some rA, none⟩, ⟨false, B, none, some e⟩,
        ⟨true, C, some rC, none⟩] := by
    simp [bulkRun, bulkLoop, processBulkItem, hA, hB, hC]
  have hdel : (bulkRun step 2 [A, B, C]).2.2 = 1 := by
    simp [bulkRun, bulkLoop]
  refine ⟨hres, hdel, ?_, ?_⟩ <;>
    simp [hres, bulkSuccessCount, bulkFailedCount]

/-- Witness for C4: a bulk `create` run on `org` where the middle item lacks
the required `name` field. -/
theorem claim4_witness :
    (bulkItemStep ("org") orgConfig true
      (fun _ => Except.ok (JValue.str ("resp"))) .create
      [(("name"), JValue.str ("A1"))] =
      ⟨Except.ok (JValue.str ("resp")),
        [BackendCall.post ("org") [(("name"), JValue.str ("A1"))]]⟩) ∧
    (bulkRun (bulkItemStep ("org") orgConfig true
        (fun _ => Except.ok (JValue.str ("resp"))) .create) 2
      [[(("name"), JValue.str ("A1"))], [],
        [(("name"), JValue.str ("C1"))]]).2.2 = 1 ∧
    bulkSuccessCount (bulkRun (bulkItemStep ("org") orgConfig true
        (fun _ => Except.ok (JValue.str ("resp"))) .create) 2
      [[(("name"), JValue.str ("A1"))], [],
        [(("name"), JValue.str ("C1"))]]).1 = 2 ∧
    bulkFailedCount (bulkRun (bulkItemStep ("org") orgConfig true
        (fun _ => Except.ok (JValue.str ("resp"))) .create) 2
      [[(("name"), JValue.str ("A1"))], [],
        [(("name"), JValue.str ("C1"))]]).1 = 1 := by
  have h := claim4_bulk_failure_isolation
    (bulkItemStep ("org") orgConfig true
      (fun _ => Except.ok (JValue.str ("resp"))) .create)
    [(("name"), JValue.str ("A1"))] [] [(("name"), JValue.str ("C1"))]
    (JValue.str ("resp")) (JValue.str ("resp"))
    ("Validation failed for org: name: Required")
    [BackendCall.post ("org") [(("name"), JValue.str ("A1"))]] []
    [BackendCall.post ("org") [(("name"), JValue.str ("C1"))]]
    rfl rfl rfl
  exact ⟨rfl, h.2.1, h.2.2.1, h.2.2.2⟩

/-- Every branch of the query-parameter loop body performs the same
assignment: the classification never changes the stored key or value. -/
theorem validateQueryParamsStep_eq_upsert
    (acc : List (String × JValue)) (kv : String × JValue) :
    validateQueryParamsStep acc kv = upsert acc kv.1 kv.2 := by
  unfold validateQueryParamsStep
  split
  · rfl
  · split
    · split <;> rfl
    · rfl

/-- Assignment of a fresh key appends it. -/
theorem upsert_fresh {acc : List (String × JValue)} {k : String}
    {v : JValue} (h : ∀ p ∈ acc, (p.1 == k) = false) :
    upsert acc k v = acc ++ [(k, v)] := by
  have hany : acc.any (fun p => p.1 == k) = false := by
    rw [List.any_eq_false]
    intro p hp
    simp [h p hp]
  simp [upsert, hany]

/-- Folding the query-parameter loop body over entries whose keys are fresh
and mutually distinct appends them unchanged. -/
theorem vqp_foldl_append :
    ∀ (ps : List (String × JValue)) (acc : List (String × JValue)),
      (ps.map Prod.fst).Nodup →
      (∀ p ∈ ps, ∀ q ∈ acc, (q.1 == p.1) = false) →
      ps.foldl validateQueryParamsStep acc = acc ++ ps := by
  intro ps
  induction ps with
  | nil => intro acc _ _; simp
  | cons kv rest ih =>
    intro acc hnd hfresh
    rw [List.foldl_cons, validateQueryParamsStep_eq_upsert,
      upsert_fresh (fun q hq => hfresh kv (by simp) q hq)]
    rw [List.map_cons, List.nodup_cons] at hnd
    rw [ih (acc ++ [(kv.1, kv.2)]) hnd.2 ?_]
    · simp
    · intro p hp q hq
      rcases List.mem_append.mp hq with hq1 | hq2
      · exact hfresh p (by simp [hp]) q hq1
      · have : q = (kv.1, kv.2) := by simpa using hq2
        rw [this]
        exact beq_eq_false_iff_ne.mpr
          (fun he => hnd.1 (he ▸ List.mem_map_of_mem Prod.fst hp))

/-- C5: the query-parameter validator is total and gate-free — on any raw
key/value map (unique keys, as every JS object has) it returns the map
unchanged, so every input key including an unrecognized compound such as
`asn__bogus` is retained under its literal key with its unmodified value. -/
theorem claim5_query_validator_identity :
    ∀ ps : List (String × JValue), (ps.map Prod.fst).Nodup →
      validateQueryParams ps = ps := by
  intro ps h
  have := vqp_foldl_append ps [] h (by intro p _ q hq; cases hq)
  simpa [validateQueryParams] using this

/-- Witness for C5 on the unrecognized-modifier key `asn__bogus`. -/
theorem claim5_witness :
    ((([(("asn__bogus"), JValue.str ("10"))] :
        List (String × JValue)).map Prod.fst).Nodup) ∧
    validateQueryParams [(("asn__bogus"), JValue.str ("10"))] =
      [(("asn__bogus"), JValue.str ("10"))] := by
  refine ⟨by decide, ?_⟩
  exact claim5_query_validator_identity
    [(("asn__bogus"), JValue.str ("10"))] (by decide)

/-- C6 counterexample: a numeric standard parameter whose raw value does not
parse as an integer is dropped from the normalized output entirely — the key
`limit` with value `abc` does not pass through. -/
theorem claim6_counterexample :
    normalizeResourceParams [(("limit"), ("abc"))] = [] := by rfl

/-- C6 amended: for each numeric standard parameter (`limit`, `skip`,
`depth`, `since`), resource-parameter normalization keeps the key with its
value coerced to an integer when JavaScript `parseInt` yields one; when
`parseInt` yields `NaN`, the key is dropped from the output — it does not
pass through under its key. -/
theorem claim6_numeric_param_amended :
    ∀ (k v : String),
      k ∈ (["limit", "skip", "depth", "since"] : List String) →
      (∀ n : Int, jsParseInt v = some n →
        normalizeResourceParams [(k, v)] = [(k, JValue.num n)]) ∧
      (jsParseInt v = none → normalizeResourceParams [(k, v)] = []) := by
  intro k v hk
  simp only [List.mem_cons, List.not_mem_nil, or_false] at hk
  rcases hk with rfl | rfl | rfl | rfl <;>
    exact ⟨fun n hn => by
        simp [normalizeResourceParams, parseResourceParams,
          parseResourceParamsStep, hn, validateQueryParams,
          validateQueryParamsStep_eq_upsert, upsert],
      fun hn => by
        simp [normalizeResourceParams, parseResourceParams,
          parseResourceParamsStep, hn, validateQueryParams]⟩

/-- Witness for C6 on `limit=5`. -/
theorem claim6_witness :
    (("limit" : String) ∈
      (["limit", "skip", "depth", "since"] : List String)) ∧
    jsParseInt ("5") = some 5 ∧
    normalizeResourceParams [(("limit"), ("5"))] =
      [(("limit"), JValue.num 5)] := by
  refine ⟨by decide, rfl, ?_⟩
  exact (claim6_numeric_param_amended ("limit") ("5")
    (by decide)).1 5 rfl

/-- C7 counterexample: parsing `scheme://net/123?limit=5` does not succeed —
the URL host is `net` and the pathname is `/123`, so the first nonempty
path segment is `123`, not the literal `peeringdb:` demanded by the parser,
and it fails with the invalid-format error. -/
theorem claim7_counterexample :
    validateResourceUri ("scheme://net/123?limit=5") =
      Except.error ("Invalid PeeringDB resource URI format") := by rfl

/-- C7 amended: `scheme://net/123?limit=5` fails with the invalid-format
error; an identifier whose first path segment is the literal `peeringdb:`
followed by the type and id — such as
`scheme://host/peeringdb:/net/123?limit=5` — parses to object type `net` and
instance id `123`, but the filter keeps `limit` as the string `5`: the
resource-identifier parser applies no integer coercion. -/
theorem claim7_resource_uri_amended :
    validateResourceUri ("scheme://net/123?limit=5") =
      Except.error ("Invalid PeeringDB resource URI format") ∧
    validateResourceUri ("scheme://host/peeringdb:/net/123?limit=5") =
      Except.ok ⟨"net", some ("123"), [(("limit"), JValue.str ("5"))]⟩ := by
  exact ⟨rfl, rfl⟩

/-- C8: the field-schema synthesizer maps `info_type` to a boolean rule, not
the nine-value enumeration — the boolean branch matching the `info_` name
stem runs
before the `info_type` enumeration branch, leaving the latter unreachable —
so the legitimate PeeringDB value `Content` is rejected. -/
theorem claim8_info_type_is_boolean :
    createFieldSchema ("info_type") = FieldSchema.booleanFlag ∧
    checkField (createFieldSchema ("info_type")) (JValue.str ("Content")) =
      false ∧
    checkField (createFieldSchema ("info_type"))
      (JValue.bool true) = true := by
  exact ⟨rfl, rfl, rfl⟩

/-- C9: for any registry and object type whose descriptor write-operation
set excludes DELETE, no delete tool is registered for that type, and a
delete invocation fails with UnsupportedOperation without issuing any
backend call. -/
theorem claim9_unsupported_delete_unregistered :
    ∀ (registry : List (String × ObjectConfig)) (t : String)
      (cfg : ObjectConfig) (hasKey : Bool)
      (backend : BackendCall → Except String JValue)
      (args : List (String × JValue)),
      lookupCfg registry t = some cfg →
      supportsOperationIn registry t ("DELETE") = false →
      ToolKind.delete ∉ registeredTools registry t ∧
      (dispatchDelete registry t cfg hasKey backend args).result =
        Except.error ("UnsupportedOperation") ∧
      (dispatchDelete registry t cfg hasKey backend args).calls = [] := by
  intro registry t cfg hasKey backend args h hsup
  have hmem : ToolKind.delete ∉ registeredTools registry t := by
    simp only [registeredTools, h, hsup]
    split_ifs <;> simp_all
  exact ⟨hmem, by simp [dispatchDelete, hmem], by simp [dispatchDelete, hmem]⟩

/-- Registry variant used to witness C9: `poc` with DELETE removed from its
write operations. -/
def pocNoDelete : ObjectConfig :=
  { pocConfig with writeOperations := ["POST", "PUT", "PATCH"] }

/-- Witness for C9 on a registry whose `poc` descriptor excludes DELETE. -/
theorem claim9_witness :
    lookupCfg [(("poc"), pocNoDelete)] ("poc") = some pocNoDelete ∧
    supportsOperationIn [(("poc"), pocNoDelete)] ("poc") ("DELETE") =
      false ∧
    ToolKind.delete ∉ registeredTools [(("poc"), pocNoDelete)] ("poc") ∧
    (dispatchDelete [(("poc"), pocNoDelete)] ("poc") pocNoDelete true
      (fun _ => Except.ok (JValue.str ("resp")))
      [(("id"), JValue.num 7)]).calls = [] := by
  have h := claim9_unsupported_delete_unregistered
    [(("poc"), pocNoDelete)] ("poc") pocNoDelete true
    (fun _ => Except.ok (JValue.str ("resp"))) [(("id"), JValue.num 7)]
    rfl rfl
  exact ⟨rfl, rfl, h.1, h.2.2⟩

/-- C10: with an API key configured, the delete tool handler performs no
payload validation and no id-presence check — for every argument map,
including one with no `id` entry at all, it issues exactly one backend
delete call carrying the raw `args.id` value (`undefined` when absent). -/
theorem claim10_delete_raw_dispatch :
    ∀ (t : String) (cfg : ObjectConfig) (hasKey : Bool)
      (backend : BackendCall → Except String JValue)
      (args : List (String × JValue)),
      hasKey = true →
      (deleteToolHandler t cfg hasKey backend args).calls =
        [BackendCall.delete cfg.endpoint (rawGet args ("id"))] := by
  intro t cfg hasKey backend args h
  rw [h]
  rfl

/-- Witness for C10: deleting an `org` with an empty argument map issues one
backend delete call whose id is `undefined`. -/
theorem claim10_witness :
    (true = true) ∧
    (deleteToolHandler ("org") orgConfig true
      (fun _ => Except.ok (JValue.str ("resp"))) []).calls =
      [BackendCall.delete ("org") JValue.undefined] := by
  exact ⟨rfl, claim10_delete_raw_dispatch ("org") orgConfig true
    (fun _ => Except.ok (JValue.str ("resp"))) [] rfl⟩

end PeeringDBMCP
